import Mathlib

/-!
Shallow embedding of the rent-vs-buy projection engine found in
`src/app/page.tsx` (the `results` computation, source lines 75-242).

Numeric values of the engine are modelled as real numbers.  A raw input
field is `Option ℝ`: `none` models a missing value or a NaN produced by
`Number(...)`, `some v` an ordinary finite numeric value.  JavaScript
`Math.round` (round half toward positive infinity) coincides with
Mathlib's `round` on ℝ, and `Math.pow` on a positive base coincides with
`Real.rpow`, which is what the amortization formula uses.
-/

namespace RentVsBuy

noncomputable section

open scoped Classical

/-- The twelve numeric input fields of the engine (source lines 36-55). -/
structure RawInputs where
  years : Option ℝ
  rentMonthly : Option ℝ
  rentGrowthPct : Option ℝ
  homePrice : Option ℝ
  downPct : Option ℝ
  mortgageRatePct : Option ℝ
  amortYears : Option ℝ
  propertyTaxPct : Option ℝ
  maintenancePct : Option ℝ
  homeGrowthPct : Option ℝ
  sellingCostPct : Option ℝ
  investReturnPct : Option ℝ

/-- JavaScript coercion `Number(x) || d`: a NaN/missing value and the
number 0 are both falsy and yield the default `d`. -/
def numOr : Option ℝ → ℝ → ℝ
  | none, d => d
  | some v, d => if v = 0 then d else v

/-- The coerced scalar parameters computed once per run
(source lines 78-95). -/
structure Params where
  rentMonthly : ℝ
  rentGrowth : ℝ
  homeGrowth : ℝ
  mortgageRate : ℝ
  propTax : ℝ
  maint : ℝ
  sellCost : ℝ
  investMonthly : ℝ
  price : ℝ
  downPayment : ℝ
  loan : ℝ
  nMonths : ℝ

/-- Input coercion, mirroring source lines 78-95:
rates are percent inputs divided by 100, `investMonthly` is the annual
investment return divided by 12, `downPayment = downPct/100 * price`,
`loan = max 0 (price - downPayment)`, and
`nMonths = max 1 ((amortYears || 1) * 12)`. -/
def paramsOf (i : RawInputs) : Params where
  rentMonthly := numOr i.rentMonthly 0
  rentGrowth := numOr i.rentGrowthPct 0 / 100
  homeGrowth := numOr i.homeGrowthPct 0 / 100
  mortgageRate := numOr i.mortgageRatePct 0 / 100
  propTax := numOr i.propertyTaxPct 0 / 100
  maint := numOr i.maintenancePct 0 / 100
  sellCost := numOr i.sellingCostPct 0 / 100
  investMonthly := numOr i.investReturnPct 0 / 100 / 12
  price := numOr i.homePrice 0
  downPayment := numOr i.downPct 0 / 100 * numOr i.homePrice 0
  loan := max 0 (numOr i.homePrice 0 - numOr i.downPct 0 / 100 * numOr i.homePrice 0)
  nMonths := max 1 (numOr i.amortYears 1 * 12)

/-- The simulated horizon in years, source line 76:
`Math.max(1, Math.min(50, Math.floor(Number(years) || 1)))`. -/
def yMaxOf (i : RawInputs) : ℕ :=
  (max 1 (min 50 ⌊numOr i.years 1⌋)).toNat

/-- The monthly mortgage payment, source lines 96-101:
`loan === 0 ? 0 : r === 0 ? loan / n : loan * r / (1 - (1+r) ** (-n))`. -/
def monthlyMortgage (loan r n : ℝ) : ℝ :=
  if loan = 0 then 0
  else if r = 0 then loan / n
  else loan * r / (1 - (1 + r) ^ (-n))

/-- The engine's payment applied to the coerced inputs, with
`r = mortgageRate / 12` (source line 94) and `n` the floored month
count (source line 95). -/
def monthlyMortgageOf (i : RawInputs) : ℝ :=
  monthlyMortgage (paramsOf i).loan ((paramsOf i).mortgageRate / 12) (paramsOf i).nMonths

/-- State of the inner month loop: the two quantities mutated monthly
(`remainingBalance`, `renterPortfolio`) and the two per-year
accumulators (source lines 119-120). -/
structure MonthAcc where
  balance : ℝ
  portfolio : ℝ
  rentPaidThisYear : ℝ
  buyCashThisYear : ℝ

/-- One iteration of the month loop (source lines 122-150), for the
1-based year `y` and the home `value` current during that year. -/
def monthStep (p : Params) (M : ℝ) (y : ℕ) (value : ℝ) (s : MonthAcc) : MonthAcc :=
  let rentThisMonth := p.rentMonthly * (1 + p.rentGrowth) ^ (y - 1)
  let propTaxThisMonth := value * p.propTax / 12
  let maintThisMonth := value * p.maint / 12
  let interestThisMonth := s.balance * (p.mortgageRate / 12)
  let principalThisMonth := max 0 (M - interestThisMonth)
  let buyThisMonth := M + propTaxThisMonth + maintThisMonth
  { balance := max 0 (s.balance - principalThisMonth)
    portfolio := s.portfolio * (1 + p.investMonthly) + (buyThisMonth - rentThisMonth)
    rentPaidThisYear := s.rentPaidThisYear + rentThisMonth
    buyCashThisYear := s.buyCashThisYear + buyThisMonth }

/-- `monthsRun p M y value k s` is the state after `k` iterations of the
month loop starting from `s`. -/
def monthsRun (p : Params) (M : ℝ) (y : ℕ) (value : ℝ) : ℕ → MonthAcc → MonthAcc
  | 0, s => s
  | k + 1, s => monthStep p M y value (monthsRun p M y value k s)

/-- The simulation state carried from year to year
(source lines 104-111). -/
structure SimCore where
  value : ℝ
  balance : ℝ
  portfolio : ℝ
  rentPaidCum : ℝ
  buyCashCum : ℝ

/-- One outer-loop year (source lines 118-156): run 12 months starting
from zeroed per-year accumulators, add the yearly totals into the
cumulative sums, and apply the end-of-year home value growth. -/
def yearStep (p : Params) (M : ℝ) (y : ℕ) (c : SimCore) : SimCore :=
  let a := monthsRun p M y c.value 12 ⟨c.balance, c.portfolio, 0, 0⟩
  { value := c.value * (1 + p.homeGrowth)
    balance := a.balance
    portfolio := a.portfolio
    rentPaidCum := c.rentPaidCum + a.rentPaidThisYear
    buyCashCum := c.buyCashCum + a.buyCashThisYear }

/-- One emitted yearly record (the `Point` type of the source,
lines 15-27); each monetary field is produced by `Math.round`. -/
structure Point where
  year : ℕ
  rentPaidCum : ℝ
  renterPortfolio : ℝ
  rentNetCost : ℝ
  buyCashCum : ℝ
  equity : ℝ
  netBuyCost : ℝ

/-- Full state of the outer loop: simulation core, emitted records, and
the two one-shot breakeven registers (source lines 113-115). -/
structure RunState where
  core : SimCore
  data : List Point
  breakEvenWealthYear : Option ℕ
  breakEvenCostYear : Option ℕ

/-- The end-of-year bookkeeping of the outer loop (source lines
152-183): equity if sold, cost framing, record emission with per-field
rounding, and the two breakeven checks. -/
def postYear (p : Params) (M : ℝ) (y : ℕ) (r : RunState) : RunState :=
  let c := yearStep p M y r.core
  let netSaleProceeds := c.value * (1 - p.sellCost) - c.balance
  let equity := max 0 netSaleProceeds
  let rentNetCost := c.rentPaidCum - c.portfolio
  let netBuyCost := c.buyCashCum - equity
  { core := c
    data := r.data ++ [{ year := y
                         rentPaidCum := ↑(round c.rentPaidCum)
                         renterPortfolio := ↑(round c.portfolio)
                         rentNetCost := ↑(round rentNetCost)
                         buyCashCum := ↑(round c.buyCashCum)
                         equity := ↑(round equity)
                         netBuyCost := ↑(round netBuyCost) }]
    breakEvenWealthYear :=
      if r.breakEvenWealthYear = none ∧ equity > c.portfolio then some y
      else r.breakEvenWealthYear
    breakEvenCostYear :=
      if r.breakEvenCostYear = none ∧ netBuyCost < rentNetCost then some y
      else r.breakEvenCostYear }

/-- Initial outer-loop state (source lines 104-115): home value starts
at the price, the balance at the loan, the renter portfolio and the
cumulative buy cash at the down payment, cumulative rent at 0. -/
def initRun (p : Params) : RunState :=
  { core := { value := p.price
              balance := p.loan
              portfolio := p.downPayment
              rentPaidCum := 0
              buyCashCum := p.downPayment }
    data := []
    breakEvenWealthYear := none
    breakEvenCostYear := none }

/-- `runUpTo p M n` is the outer-loop state after processing years
`1, 2, ..., n` in order. -/
def runUpTo (p : Params) (M : ℝ) : ℕ → RunState
  | 0 => initRun p
  | n + 1 => postYear p M (n + 1) (runUpTo p M n)

/-- The slice of the engine's return value (source lines 224-242) that
the specification's claims are about. -/
structure Output where
  data : List Point
  monthlyMortgage : ℝ
  downPayment : ℝ
  breakEvenWealthYear : Option ℕ
  breakEvenCostYear : Option ℕ

/-- The engine: coerce the inputs, compute the payment, run the
simulation for the clamped horizon, and return the rounded summary
values together with the records and breakeven years. -/
def results (i : RawInputs) : Output :=
  let p := paramsOf i
  let M := monthlyMortgageOf i
  let st := runUpTo p M (yMaxOf i)
  { data := st.data
    monthlyMortgage := ↑(round M)
    downPayment := ↑(round p.downPayment)
    breakEvenWealthYear := st.breakEvenWealthYear
    breakEvenCostYear := st.breakEvenCostYear }

/-! ### Derived views of the run used to state the claims -/

/-- The unrounded simulation core after `y` simulated years. -/
def stateAfter (i : RawInputs) (y : ℕ) : SimCore :=
  (runUpTo (paramsOf i) (monthlyMortgageOf i) y).core

/-- The unrounded sellable equity at the end of year `y`
(source lines 158-160). -/
def equityAfter (i : RawInputs) (y : ℕ) : ℝ :=
  max 0 ((stateAfter i y).value * (1 - (paramsOf i).sellCost) - (stateAfter i y).balance)

/-- The unrounded rent-side net cost at the end of year `y`. -/
def rentNetCostAfter (i : RawInputs) (y : ℕ) : ℝ :=
  (stateAfter i y).rentPaidCum - (stateAfter i y).portfolio

/-- The unrounded buy-side net cost at the end of year `y`. -/
def netBuyCostAfter (i : RawInputs) (y : ℕ) : ℝ :=
  (stateAfter i y).buyCashCum - equityAfter i y

/-- The record the engine emits for year `y`: each field is the rounded
value of the corresponding unrounded end-of-year quantity. -/
def mkRoundedPoint (i : RawInputs) (y : ℕ) : Point :=
  { year := y
    rentPaidCum := ↑(round ((stateAfter i y).rentPaidCum))
    renterPortfolio := ↑(round ((stateAfter i y).portfolio))
    rentNetCost := ↑(round (rentNetCostAfter i y))
    buyCashCum := ↑(round ((stateAfter i y).buyCashCum))
    equity := ↑(round (equityAfter i y))
    netBuyCost := ↑(round (netBuyCostAfter i y)) }

/-- First year in `1..n` (scanning upward) satisfying `P`, if any. -/
def firstYearHit (P : ℕ → Prop) : ℕ → Option ℕ
  | 0 => none
  | n + 1 =>
    match firstYearHit P n with
    | some y => some y
    | none => if P (n + 1) then some (n + 1) else none

/-- Wealth-breakeven condition checked at the end of year `y`:
unrounded equity strictly exceeds the unrounded renter portfolio. -/
def wealthHit (i : RawInputs) (y : ℕ) : Prop :=
  equityAfter i y > (stateAfter i y).portfolio

/-- Cost-breakeven condition checked at the end of year `y`:
unrounded buy net cost strictly below unrounded rent net cost. -/
def costHit (i : RawInputs) (y : ℕ) : Prop :=
  netBuyCostAfter i y < rentNetCostAfter i y

/-! ### Definitions transcribed from the specification's wording -/

/-- Modelled from the words of claim C1: the three-case payment rule
with `P = max 0 (price - downPayment)`, `r = R/12` and `n = N*12`,
where `R` and `N` are the coerced annual rate and term in years. -/
def specPaymentC1 (i : RawInputs) : ℝ :=
  let price := numOr i.homePrice 0
  let down := numOr i.downPct 0 / 100 * price
  let P := max 0 (price - down)
  let R := numOr i.mortgageRatePct 0 / 100
  let N := numOr i.amortYears 1
  let r := R / 12
  let n := N * 12
  if P ≤ 0 then 0 else if R = 0 then P / n else P * r / (1 - (1 + r) ^ (-n))

/-- The amended claim C1 rule: identical to `specPaymentC1` except that
the month count is floored at one month, `n = max 1 (N*12)`, as the
code does on source line 95. -/
def specPaymentC1Floor (i : RawInputs) : ℝ :=
  let price := numOr i.homePrice 0
  let down := numOr i.downPct 0 / 100 * price
  let P := max 0 (price - down)
  let R := numOr i.mortgageRatePct 0 / 100
  let N := numOr i.amortYears 1
  let r := R / 12
  let n := max 1 (N * 12)
  if P ≤ 0 then 0 else if R = 0 then P / n else P * r / (1 - (1 + r) ^ (-n))

/-- Modelled from the words of claim C3: the payment the engine would
produce if the term `N` were floored to at least one year before the
month count `n = N*12` is formed. -/
def paymentWithYearFloor (i : RawInputs) : ℝ :=
  monthlyMortgage (paramsOf i).loan ((paramsOf i).mortgageRate / 12)
    (max 1 (numOr i.amortYears 1) * 12)

/-- The owner's monthly cash outflow during global month `t` (0-based):
payment plus property tax and maintenance charged on the home value at
the start of that month's year. -/
def monthlyOwnerCash (i : RawInputs) (t : ℕ) : ℝ :=
  monthlyMortgageOf i + (stateAfter i (t / 12)).value * (paramsOf i).propTax / 12 +
    (stateAfter i (t / 12)).value * (paramsOf i).maint / 12

/-- The rent charged during global month `t` (0-based): the base rent
grown in annual steps. -/
def monthlyRentAt (i : RawInputs) (t : ℕ) : ℝ :=
  (paramsOf i).rentMonthly * (1 + (paramsOf i).rentGrowth) ^ (t / 12)

/-- Modelled from the words of claim C7: a portfolio seeded with the
down payment, where every month the previous balance first grows by
the monthly investment rate and only then receives that month's
contribution or withdrawal `ownerCash - rent`. -/
def specPortfolio (i : RawInputs) : ℕ → ℝ
  | 0 => (paramsOf i).downPayment
  | t + 1 => specPortfolio i t * (1 + (paramsOf i).investMonthly) +
      (monthlyOwnerCash i t - monthlyRentAt i t)

/-- Formalization of a "valid assumption set" (claim C9): monetary
inputs are non-negative and the growth rates stay above -100 percent,
so that no modelled cash flow is negative. -/
def ValidAssumptions (i : RawInputs) : Prop :=
  0 ≤ (paramsOf i).rentMonthly ∧ -1 ≤ (paramsOf i).rentGrowth ∧
    0 ≤ (paramsOf i).price ∧ -1 < (paramsOf i).mortgageRate ∧
    0 ≤ (paramsOf i).propTax ∧ 0 ≤ (paramsOf i).maint ∧
    -1 ≤ (paramsOf i).homeGrowth

/-! ### Concrete inputs used to separate the code from the claimed
formulas -/

/-- Price 1200, term 1/24 of a year (half a month), everything else
missing: the month count the code uses is `max 1 (1/2) = 1`. -/
def i1 : RawInputs :=
  { years := none, rentMonthly := none, rentGrowthPct := none, homePrice := some 1200,
    downPct := none, mortgageRatePct := none, amortYears := some (1 / 24),
    propertyTaxPct := none, maintenancePct := none, homeGrowthPct := none,
    sellingCostPct := none, investReturnPct := none }

/-- Price 1200, term half a year, everything else missing: the code uses
6 months, a term floored to one year would use 12. -/
def i3 : RawInputs :=
  { years := none, rentMonthly := none, rentGrowthPct := none, homePrice := some 1200,
    downPct := none, mortgageRatePct := none, amortYears := some (1 / 2),
    propertyTaxPct := none, maintenancePct := none, homeGrowthPct := none,
    sellingCostPct := none, investReturnPct := none }

/-- One year, rent 1/32 of a dollar a month, everything else missing:
the renter portfolio ends at -3/8, rent paid at 3/8, and the three
rounded rent-side fields are 0, 0 and 1. -/
def i2 : RawInputs :=
  { years := some 1, rentMonthly := some (1 / 32), rentGrowthPct := none, homePrice := none,
    downPct := none, mortgageRatePct := none, amortYears := none,
    propertyTaxPct := none, maintenancePct := none, homeGrowthPct := none,
    sellingCostPct := none, investReturnPct := none }

/-- The end-to-end scenario of the specification: 20 years, rent 2500
growing 3 percent, price 600000 with 20 percent down at 5 percent over
25 years, 1 percent tax and maintenance, 3 percent appreciation,
5 percent selling costs, 6 percent investment return. -/
def i4 : RawInputs :=
  { years := some 20, rentMonthly := some 2500, rentGrowthPct := some 3,
    homePrice := some 600000, downPct := some 20, mortgageRatePct := some 5,
    amortYears := some 25, propertyTaxPct := some 1, maintenancePct := some 1,
    homeGrowthPct := some 3, sellingCostPct := some 5, investReturnPct := some 6 }

/-! ### Basic lemmas about the loops -/

lemma monthsRun_succ (p : Params) (M : ℝ) (y : ℕ) (value : ℝ) (k : ℕ) (s : MonthAcc) :
    monthsRun p M y value (k + 1) s = monthStep p M y value (monthsRun p M y value k s) :=
  rfl

lemma monthsRun_rentPaid (p : Params) (M : ℝ) (y : ℕ) (value : ℝ) :
    ∀ (k : ℕ) (s : MonthAcc),
      (monthsRun p M y value k s).rentPaidThisYear =
        s.rentPaidThisYear + k * (p.rentMonthly * (1 + p.rentGrowth) ^ (y - 1)) := by
  intro k
  induction k with
  | zero => intro s; simp [monthsRun]
  | succ k ih =>
    intro s
    rw [monthsRun_succ]
    simp only [monthStep, ih]
    push_cast
    ring

lemma monthsRun_buyCash (p : Params) (M : ℝ) (y : ℕ) (value : ℝ) :
    ∀ (k : ℕ) (s : MonthAcc),
      (monthsRun p M y value k s).buyCashThisYear =
        s.buyCashThisYear + k * (M + value * p.propTax / 12 + value * p.maint / 12) := by
  intro k
  induction k with
  | zero => intro s; simp [monthsRun]
  | succ k ih =>
    intro s
    rw [monthsRun_succ]
    simp only [monthStep, ih]
    push_cast
    ring

lemma monthsRun_portfolio_succ (p : Params) (M : ℝ) (y : ℕ) (value : ℝ) (k : ℕ) (s : MonthAcc) :
    (monthsRun p M y value (k + 1) s).portfolio =
      (monthsRun p M y value k s).portfolio * (1 + p.investMonthly) +
        ((M + value * p.propTax / 12 + value * p.maint / 12) -
          p.rentMonthly * (1 + p.rentGrowth) ^ (y - 1)) := by
  rw [monthsRun_succ]
  simp [monthStep]

lemma stateAfter_zero (i : RawInputs) : stateAfter i 0 = (initRun (paramsOf i)).core :=
  rfl

lemma stateAfter_succ (i : RawInputs) (y : ℕ) :
    stateAfter i (y + 1) =
      yearStep (paramsOf i) (monthlyMortgageOf i) (y + 1) (stateAfter i y) :=
  rfl

lemma stateAfter_value (i : RawInputs) :
    ∀ y : ℕ, (stateAfter i y).value = (paramsOf i).price * (1 + (paramsOf i).homeGrowth) ^ y := by
  intro y
  induction y with
  | zero => simp [stateAfter_zero, initRun]
  | succ y ih =>
    rw [stateAfter_succ]
    simp only [yearStep, ih]
    ring

lemma stateAfter_rentPaidCum_succ (i : RawInputs) (y : ℕ) :
    (stateAfter i (y + 1)).rentPaidCum =
      (stateAfter i y).rentPaidCum +
        12 * ((paramsOf i).rentMonthly * (1 + (paramsOf i).rentGrowth) ^ y) := by
  rw [stateAfter_succ]
  simp [yearStep, monthsRun_rentPaid]

lemma stateAfter_buyCashCum_succ (i : RawInputs) (y : ℕ) :
    (stateAfter i (y + 1)).buyCashCum =
      (stateAfter i y).buyCashCum +
        12 * (monthlyMortgageOf i +
          (stateAfter i y).value * (paramsOf i).propTax / 12 +
          (stateAfter i y).value * (paramsOf i).maint / 12) := by
  rw [stateAfter_succ]
  simp [yearStep, monthsRun_buyCash]

/-! ### The outer loop produces exactly the rounded records and the
first-occurrence breakeven years -/

lemma runUpTo_data (i : RawInputs) :
    ∀ n : ℕ,
      (runUpTo (paramsOf i) (monthlyMortgageOf i) n).data =
        (List.range n).map (fun k => mkRoundedPoint i (k + 1)) := by
  intro n
  induction n with
  | zero => simp [runUpTo, initRun]
  | succ n ih =>
    show (postYear (paramsOf i) (monthlyMortgageOf i) (n + 1)
        (runUpTo (paramsOf i) (monthlyMortgageOf i) n)).data = _
    rw [List.range_succ, List.map_append, ← ih]
    simp only [postYear, List.map_cons, List.map_nil]
    rfl

lemma runUpTo_bew (i : RawInputs) :
    ∀ n : ℕ,
      (runUpTo (paramsOf i) (monthlyMortgageOf i) n).breakEvenWealthYear =
        firstYearHit (wealthHit i) n := by
  intro n
  induction n with
  | zero => simp [runUpTo, initRun, firstYearHit]
  | succ n ih =>
    show (postYear (paramsOf i) (monthlyMortgageOf i) (n + 1)
        (runUpTo (paramsOf i) (monthlyMortgageOf i) n)).breakEvenWealthYear = _
    simp only [postYear, firstYearHit, ih]
    cases h : firstYearHit (wealthHit i) n with
    | some z => simp
    | none =>
      by_cases hw : wealthHit i (n + 1)
      · rw [if_pos ⟨rfl, hw⟩, if_pos hw]
      · rw [if_neg (fun hc => hw hc.2), if_neg hw]

lemma runUpTo_bec (i : RawInputs) :
    ∀ n : ℕ,
      (runUpTo (paramsOf i) (monthlyMortgageOf i) n).breakEvenCostYear =
        firstYearHit (costHit i) n := by
  intro n
  induction n with
  | zero => simp [runUpTo, initRun, firstYearHit]
  | succ n ih =>
    show (postYear (paramsOf i) (monthlyMortgageOf i) (n + 1)
        (runUpTo (paramsOf i) (monthlyMortgageOf i) n)).breakEvenCostYear = _
    simp only [postYear, firstYearHit, ih]
    cases h : firstYearHit (costHit i) n with
    | some z => simp
    | none =>
      by_cases hw : costHit i (n + 1)
      · rw [if_pos ⟨rfl, hw⟩, if_pos hw]
      · rw [if_neg (fun hc => hw hc.2), if_neg hw]

lemma results_data (i : RawInputs) :
    (results i).data = (List.range (yMaxOf i)).map (fun k => mkRoundedPoint i (k + 1)) :=
  runUpTo_data i (yMaxOf i)

lemma results_bew (i : RawInputs) :
    (results i).breakEvenWealthYear = firstYearHit (wealthHit i) (yMaxOf i) :=
  runUpTo_bew i (yMaxOf i)

lemma results_bec (i : RawInputs) :
    (results i).breakEvenCostYear = firstYearHit (costHit i) (yMaxOf i) :=
  runUpTo_bec i (yMaxOf i)

lemma results_monthlyMortgage (i : RawInputs) :
    (results i).monthlyMortgage = ↑(round (monthlyMortgageOf i)) :=
  rfl

lemma results_downPayment (i : RawInputs) :
    (results i).downPayment = ↑(round (paramsOf i).downPayment) :=
  rfl

/-! ### Rounding and sign lemmas -/

lemma round_le_of_le {a b : ℝ} (h : a ≤ b) : round a ≤ round b := by
  rw [round_eq, round_eq]
  exact Int.floor_mono (by linarith)

lemma round_nonneg_of_nonneg {a : ℝ} (h : 0 ≤ a) : 0 ≤ round a := by
  have hr := round_le_of_le h
  simpa using hr

/-- Sign analysis of the annuity formula: for a non-negative loan, a
term of at least one month and a monthly rate above -100 percent, the
payment is non-negative in every branch. -/
lemma monthlyMortgage_nonneg {loan r n : ℝ} (h0 : 0 ≤ loan) (hn : 1 ≤ n) (hr : -1 < r) :
    0 ≤ monthlyMortgage loan r n := by
  unfold monthlyMortgage
  split_ifs with h1 h2
  · exact le_refl 0
  · exact div_nonneg h0 (le_trans zero_le_one hn)
  · rcases lt_or_gt_of_ne h2 with hneg | hpos
    · have hx : 0 < 1 + r := by linarith
      have hx1 : 1 + r < 1 := by linarith
      have hyn : -n < 0 := by linarith
      have h1lt : 1 < (1 + r) ^ (-n) := by
        rw [Real.one_lt_rpow_iff_of_pos hx]
        exact Or.inr ⟨hx1, hyn⟩
      have hden : 1 - (1 + r) ^ (-n) ≤ 0 := by linarith
      have hnum : loan * r ≤ 0 := mul_nonpos_iff.2 (Or.inl ⟨h0, hneg.le⟩)
      exact div_nonneg_iff.2 (Or.inr ⟨hnum, hden⟩)
    · have hx : 1 < 1 + r := by linarith
      have hyn : -n < 0 := by linarith
      have hlt : (1 + r) ^ (-n) < 1 := Real.rpow_lt_one_of_one_lt_of_neg hx hyn
      have hden : 0 ≤ 1 - (1 + r) ^ (-n) := by linarith
      exact div_nonneg (mul_nonneg h0 hpos.le) hden

lemma monthlyMortgageOf_nonneg (i : RawInputs) (h : -1 < (paramsOf i).mortgageRate / 12) :
    0 ≤ monthlyMortgageOf i :=
  monthlyMortgage_nonneg (le_max_left 0 _) (le_max_left 1 _) h

lemma monthlyRate_gt_neg_one (i : RawInputs) (h : -1 < (paramsOf i).mortgageRate) :
    -1 < (paramsOf i).mortgageRate / 12 := by
  have h12 : (-12 : ℝ) / 12 < (paramsOf i).mortgageRate / 12 :=
    (div_lt_div_iff_of_pos_right (by norm_num)).2 (by linarith)
  norm_num at h12
  exact h12

/-- Evaluation rule for `round` at explicit rational points. -/
lemma round_eq_int {x : ℝ} (z : ℤ) (h1 : (z : ℝ) ≤ x + 1 / 2) (h2 : x + 1 / 2 < z + 1) :
    round x = z := by
  rw [round_eq]
  exact Int.floor_eq_iff.2 ⟨h1, h2⟩

/-! ### Evaluation of the engine at the concrete inputs -/

lemma i1_payment : monthlyMortgageOf i1 = 1200 := by
  norm_num [monthlyMortgageOf, paramsOf, i1, numOr, monthlyMortgage, max_def]

lemma i1_specC1 : specPaymentC1 i1 = 2400 := by
  norm_num [specPaymentC1, i1, numOr, max_def]

lemma i3_payment : monthlyMortgageOf i3 = 200 := by
  norm_num [monthlyMortgageOf, paramsOf, i3, numOr, monthlyMortgage, max_def]

lemma i3_yearFloor : paymentWithYearFloor i3 = 100 := by
  norm_num [paymentWithYearFloor, paramsOf, i3, numOr, monthlyMortgage, max_def]

lemma i2_params :
    paramsOf i2 = ⟨1 / 32, 0, 0, 0, 0, 0, 0, 0, 0, 0, 0, 12⟩ := by
  norm_num [paramsOf, i2, numOr, max_def, Params.mk.injEq]

lemma i2_payment : monthlyMortgageOf i2 = 0 := by
  rw [monthlyMortgageOf, i2_params]
  norm_num [monthlyMortgage]

lemma i2_yMax : yMaxOf i2 = 1 := by
  norm_num [yMaxOf, i2, numOr, max_def, min_def]

lemma i2_months (k : ℕ) :
    monthsRun ⟨1 / 32, 0, 0, 0, 0, 0, 0, 0, 0, 0, 0, 12⟩ 0 1 0 k ⟨0, 0, 0, 0⟩ =
      ⟨0, -((k : ℝ) / 32), (k : ℝ) / 32, 0⟩ := by
  induction k with
  | zero => norm_num [monthsRun, MonthAcc.mk.injEq]
  | succ k ih =>
    rw [monthsRun_succ, ih]
    simp only [monthStep, MonthAcc.mk.injEq]
    push_cast
    norm_num [max_def]
    all_goals simp
    all_goals exact ⟨by ring, by ring⟩

lemma i2_state : stateAfter i2 1 = ⟨0, 0, -(3 / 8), 3 / 8, 0⟩ := by
  have h0 : stateAfter i2 0 = ⟨0, 0, 0, 0, 0⟩ := by
    rw [stateAfter_zero, i2_params]
    norm_num [initRun, SimCore.mk.injEq]
  have h1 := stateAfter_succ i2 0
  rw [h0, i2_params, i2_payment] at h1
  norm_num at h1
  rw [h1]
  simp only [yearStep]
  rw [i2_months 12]
  norm_num [SimCore.mk.injEq]

lemma i2_point :
    mkRoundedPoint i2 1 = ⟨1, 0, 0, 1, 0, 0, 0⟩ := by
  have he : equityAfter i2 1 = 0 := by
    rw [equityAfter, i2_state, i2_params]
    norm_num
  have hn : rentNetCostAfter i2 1 = 3 / 4 := by
    rw [rentNetCostAfter, i2_state]
    norm_num
  have hb : netBuyCostAfter i2 1 = 0 := by
    rw [netBuyCostAfter, he, i2_state]
    norm_num
  have r1 : round ((3 : ℝ) / 8) = 0 := round_eq_int 0 (by norm_num) (by norm_num)
  have r2 : round (-((3 : ℝ) / 8)) = 0 := round_eq_int 0 (by norm_num) (by norm_num)
  have r3 : round ((3 : ℝ) / 4) = 1 := round_eq_int 1 (by norm_num) (by norm_num)
  rw [mkRoundedPoint, he, hn, hb, i2_state]
  norm_num [Point.mk.injEq, r1, r2, r3]

lemma i2_data : (results i2).data = [⟨1, 0, 0, 1, 0, 0, 0⟩] := by
  rw [results_data, i2_yMax, ← i2_point]
  rfl

/-! ### First-occurrence characterization of the breakeven scan -/

lemma firstYearHit_none_iff (P : ℕ → Prop) :
    ∀ n : ℕ, (firstYearHit P n = none ↔ ∀ y, 1 ≤ y → y ≤ n → ¬ P y) := by
  intro n
  induction n with
  | zero =>
    simp only [firstYearHit]
    constructor
    · intro _ y h1 h0
      omega
    · intro _
      trivial
  | succ n ih =>
    simp only [firstYearHit]
    cases h : firstYearHit P n with
    | some z =>
      simp only [reduceCtorEq, false_iff]
      intro hall
      have hz : ¬ firstYearHit P n = none := by simp [h]
      rw [ih] at hz
      push_neg at hz
      obtain ⟨y, h1, hn, hy⟩ := hz
      exact hall y h1 (le_trans hn (Nat.le_succ n)) hy
    | none =>
      by_cases hP : P (n + 1)
      · rw [if_pos hP]
        simp only [reduceCtorEq, false_iff]
        intro hall
        exact hall (n + 1) (by omega) (le_refl _) hP
      · rw [if_neg hP]
        simp only [true_iff]
        intro y h1 hn1
        rcases Nat.lt_or_ge y (n + 1) with hlt | hge
        · exact (ih.1 h) y h1 (by omega)
        · have : y = n + 1 := by omega
          rw [this]
          exact hP

lemma firstYearHit_some_iff (P : ℕ → Prop) :
    ∀ n y : ℕ, (firstYearHit P n = some y ↔
      1 ≤ y ∧ y ≤ n ∧ P y ∧ ∀ z, 1 ≤ z → z < y → ¬ P z) := by
  intro n
  induction n with
  | zero =>
    intro y
    simp only [firstYearHit, reduceCtorEq, false_iff]
    intro hc
    omega
  | succ n ih =>
    intro y
    simp only [firstYearHit]
    cases h : firstYearHit P n with
    | some z =>
      obtain ⟨hz1, hzn, hzP, hzmin⟩ := (ih z).1 h
      constructor
      · intro hy
        have hyz : z = y := by injection hy
        subst hyz
        exact ⟨hz1, by omega, hzP, hzmin⟩
      · rintro ⟨hy1, hyn, hyP, hymin⟩
        have : z = y := by
          by_contra hne
          rcases Nat.lt_or_ge z y with hlt | hge
          · exact hymin z hz1 hlt hzP
          · have : z ≠ y := hne
            have hzy : y < z := by omega
            exact hzmin y hy1 hzy hyP
        rw [this]
    | none =>
      have hnone : ∀ w, 1 ≤ w → w ≤ n → ¬ P w := (firstYearHit_none_iff P n).1 h
      by_cases hP : P (n + 1)
      · rw [if_pos hP]
        constructor
        · intro hy
          have hyz : n + 1 = y := by injection hy
          subst hyz
          refine ⟨by omega, le_refl _, hP, ?_⟩
          intro z h1 hz
          exact hnone z h1 (by omega)
        · rintro ⟨hy1, hyn, hyP, hymin⟩
          have : y = n + 1 := by
            by_contra hne
            have : y ≤ n := by omega
            exact hnone y hy1 this hyP
          rw [this]
      · rw [if_neg hP]
        simp only [reduceCtorEq, false_iff]
        rintro ⟨hy1, hyn, hyP, hymin⟩
        rcases Nat.lt_or_ge y (n + 1) with hlt | hge
        · exact hnone y hy1 (by omega) hyP
        · have : y = n + 1 := by omega
          rw [this] at hyP
          exact hP hyP

/-! ### Monotonicity of the cumulative cash totals -/

lemma stateAfter_value_nonneg (i : RawInputs) (hpr : 0 ≤ (paramsOf i).price)
    (hhg : -1 ≤ (paramsOf i).homeGrowth) (y : ℕ) :
    0 ≤ (stateAfter i y).value := by
  rw [stateAfter_value]
  exact mul_nonneg hpr (pow_nonneg (by linarith) y)

lemma rentPaidCum_mono (i : RawInputs) (hrm : 0 ≤ (paramsOf i).rentMonthly)
    (hrg : -1 ≤ (paramsOf i).rentGrowth) (y : ℕ) :
    (stateAfter i y).rentPaidCum ≤ (stateAfter i (y + 1)).rentPaidCum := by
  rw [stateAfter_rentPaidCum_succ]
  have h : 0 ≤ (paramsOf i).rentMonthly * (1 + (paramsOf i).rentGrowth) ^ y :=
    mul_nonneg hrm (pow_nonneg (by linarith) y)
  linarith

lemma buyCashCum_mono (i : RawInputs) (hv : ValidAssumptions i) (y : ℕ) :
    (stateAfter i y).buyCashCum ≤ (stateAfter i (y + 1)).buyCashCum := by
  obtain ⟨hrm, hrg, hpr, hmr, hpt, hmt, hhg⟩ := hv
  rw [stateAfter_buyCashCum_succ]
  have hM : 0 ≤ monthlyMortgageOf i := monthlyMortgageOf_nonneg i (monthlyRate_gt_neg_one i hmr)
  have hval : 0 ≤ (stateAfter i y).value := stateAfter_value_nonneg i hpr hhg y
  have h1 : 0 ≤ (stateAfter i y).value * (paramsOf i).propTax / 12 :=
    div_nonneg (mul_nonneg hval hpt) (by norm_num)
  have h2 : 0 ≤ (stateAfter i y).value * (paramsOf i).maint / 12 :=
    div_nonneg (mul_nonneg hval hmt) (by norm_num)
  linarith

lemma chain_le_of_step {f : ℕ → ℝ} (n : ℕ) (h : ∀ k, f k ≤ f (k + 1)) :
    List.Chain' (fun a b => a ≤ b) ((List.range n).map f) := by
  rw [List.chain'_map]
  cases n with
  | zero => simp
  | succ n =>
    rw [List.chain'_range_succ]
    intro m _
    exact h m

/-! ### The engine's portfolio satisfies the specification recurrence -/

lemma portfolio_eq_specPortfolio (i : RawInputs) :
    ∀ y : ℕ, (stateAfter i y).portfolio = specPortfolio i (12 * y) := by
  intro y
  induction y with
  | zero => rfl
  | succ y ih =>
    have inner : ∀ m : ℕ, m ≤ 12 →
        (monthsRun (paramsOf i) (monthlyMortgageOf i) (y + 1) ((stateAfter i y).value) m
          ⟨(stateAfter i y).balance, (stateAfter i y).portfolio, 0, 0⟩).portfolio =
          specPortfolio i (12 * y + m) := by
      intro m
      induction m with
      | zero =>
        intro _
        simpa using ih
      | succ m ihm =>
        intro hm
        rw [monthsRun_portfolio_succ, ihm (by omega)]
        have hdiv : (12 * y + m) / 12 = y := by omega
        rw [show 12 * y + (m + 1) = (12 * y + m) + 1 from rfl]
        rw [specPortfolio]
        rw [monthlyOwnerCash, monthlyRentAt, hdiv]
        have hy1 : y + 1 - 1 = y := by omega
        rw [hy1]
    have h12 : (stateAfter i (y + 1)).portfolio =
        (monthsRun (paramsOf i) (monthlyMortgageOf i) (y + 1) ((stateAfter i y).value) 12
          ⟨(stateAfter i y).balance, (stateAfter i y).portfolio, 0, 0⟩).portfolio := by
      rw [stateAfter_succ]
      rfl
    rw [h12, inner 12 (le_refl 12)]
    rw [show 12 * (y + 1) = 12 * y + 12 from by ring]

/-! ## The claims -/

/-- C1, counterexample: with price 1200, down payment 0, rate 0 and a
term of 1/24 of a year, the claim's rule (`n = N*12 = 1/2`) predicts a
payment of 2400, while the engine floors the month count to 1 and
computes 1200, so the claimed three-case rule with `n = N*12` does not
describe the code. -/
theorem c1_counterexample : monthlyMortgageOf i1 ≠ specPaymentC1 i1 := by
  rw [i1_payment, i1_specC1]
  norm_num

/-- C1, amended: for every input the engine's monthly payment follows
the claimed three-case rule once the month count is floored at one
month, `n = max 1 (N*12)`: `M = 0` when `P ≤ 0`; `M = P/n` when
`R = 0`; otherwise `M = P*r/(1 - (1+r)^(-n))` with `r = R/12`. -/
theorem c1_amended_payment_rule (i : RawInputs) :
    monthlyMortgageOf i = specPaymentC1Floor i := by
  simp only [monthlyMortgageOf, specPaymentC1Floor, paramsOf, monthlyMortgage]
  by_cases h : max 0 (numOr i.homePrice 0 - numOr i.downPct 0 / 100 * numOr i.homePrice 0) = 0
  · rw [if_pos h, if_pos h.le]
  · have hP : ¬ max 0 (numOr i.homePrice 0 - numOr i.downPct 0 / 100 * numOr i.homePrice 0) ≤ 0 :=
      fun hle => h (le_antisymm hle (le_max_left 0 _))
    rw [if_neg h, if_neg hP]
    by_cases hR : numOr i.mortgageRatePct 0 / 100 = 0
    · rw [if_pos (by rw [hR]; norm_num : numOr i.mortgageRatePct 0 / 100 / 12 = 0), if_pos hR]
    · have hr : ¬ numOr i.mortgageRatePct 0 / 100 / 12 = 0 := by
        intro hc
        rcases div_eq_zero_iff.1 hc with hc | hc
        · exact hR hc
        · norm_num at hc
      rw [if_neg hr, if_neg hR]

/-- C2, counterexample: at one simulated year with monthly rent 1/32
and all other inputs missing, the emitted record is
(year 1, rentPaidCum 0, renterPortfolio 0, rentNetCost 1, ...), and
1 is not 0 - 0: the emitted rentNetCost field differs from the
difference of the other two emitted (independently rounded) fields. -/
theorem c2_counterexample :
    ¬ ∀ pt ∈ (results i2).data, pt.rentNetCost = pt.rentPaidCum - pt.renterPortfolio := by
  intro h
  have hc := h ⟨1, 0, 0, 1, 0, 0, 0⟩ (by rw [i2_data]; exact List.mem_singleton_self _)
  norm_num at hc

/-- C2, amended: the subtraction identities hold between the unrounded
end-of-year quantities, and each emitted net-cost field is the rounding
of the unrounded difference (rather than the difference of the other
two rounded fields). -/
theorem c2_amended_net_costs (i : RawInputs) :
    (∀ y : ℕ,
      rentNetCostAfter i y = (stateAfter i y).rentPaidCum - (stateAfter i y).portfolio ∧
      netBuyCostAfter i y = (stateAfter i y).buyCashCum - equityAfter i y) ∧
    (results i).data.map Point.rentNetCost =
      (List.range (yMaxOf i)).map (fun k => ↑(round (rentNetCostAfter i (k + 1)))) ∧
    (results i).data.map Point.netBuyCost =
      (List.range (yMaxOf i)).map (fun k => ↑(round (netBuyCostAfter i (k + 1)))) := by
  refine ⟨fun y => ⟨rfl, rfl⟩, ?_, ?_⟩
  · rw [results_data, List.map_map]
    rfl
  · rw [results_data, List.map_map]
    rfl

/-- C3, counterexample: with price 1200, rate 0 and a term of half a
year, the engine computes 1200/6 = 200, while flooring the term to one
year before use would give 1200/12 = 100: the code floors the month
count at one month, not the term at one year. -/
theorem c3_counterexample : monthlyMortgageOf i3 ≠ paymentWithYearFloor i3 := by
  rw [i3_payment, i3_yearFloor]
  norm_num

/-- C3, amended: the payment computation is total by construction in
this embedding; the month count `n = max 1 (N*12)` is floored to at
least one month, a missing/NaN rate behaves exactly like rate 0, and a
missing/NaN term behaves exactly like a term of 1 year. -/
theorem c3_amended_coercion_and_floor (i : RawInputs) :
    1 ≤ (paramsOf i).nMonths ∧
    monthlyMortgageOf { i with mortgageRatePct := none } =
      monthlyMortgageOf { i with mortgageRatePct := some 0 } ∧
    monthlyMortgageOf { i with amortYears := none } =
      monthlyMortgageOf { i with amortYears := some 1 } := by
  refine ⟨le_max_left 1 _, ?_, ?_⟩
  · have hp : paramsOf { i with mortgageRatePct := none } =
        paramsOf { i with mortgageRatePct := some 0 } := by
      simp [paramsOf, numOr]
    rw [monthlyMortgageOf, monthlyMortgageOf, hp]
  · have hp : paramsOf { i with amortYears := none } =
        paramsOf { i with amortYears := some 1 } := by
      simp [paramsOf, numOr]
    rw [monthlyMortgageOf, monthlyMortgageOf, hp]

/-- C4: for every input whose monthly mortgage rate `rate/12` is above
-100 percent (annual rate above -1200 percent -- below that the float
payment degenerates to non-finite values outside this embedding), the
monthly payment (raw and rounded) is non-negative, and every emitted
equity field is non-negative and equals the rounding of
`max 0 (homeValue*(1 - sellingCostRate) - remainingBalance)` taken at
that record's year -- for any appreciation rate, negative ones
included. -/
theorem c4_nonneg_equity_and_payment (i : RawInputs)
    (h : -1 < (paramsOf i).mortgageRate / 12) :
    0 ≤ monthlyMortgageOf i ∧ 0 ≤ (results i).monthlyMortgage ∧
    ∀ pt ∈ (results i).data,
      0 ≤ pt.equity ∧
      pt.equity = ↑(round (max 0 ((stateAfter i pt.year).value * (1 - (paramsOf i).sellCost) -
        (stateAfter i pt.year).balance))) := by
  have hM := monthlyMortgageOf_nonneg i h
  refine ⟨hM, ?_, ?_⟩
  · rw [results_monthlyMortgage]
    exact_mod_cast round_nonneg_of_nonneg hM
  · intro pt hpt
    rw [results_data] at hpt
    rcases List.mem_map.1 hpt with ⟨k, hk, rfl⟩
    constructor
    · show (0 : ℝ) ≤ ↑(round (equityAfter i (k + 1)))
      exact_mod_cast round_nonneg_of_nonneg (le_max_left 0 _)
    · rfl

/-- C4, witness: the hypothesis and conclusion hold at the concrete
scenario of the specification (5 percent mortgage rate). -/
theorem c4_witness :
    -1 < (paramsOf i4).mortgageRate / 12 ∧
    (0 ≤ monthlyMortgageOf i4 ∧ 0 ≤ (results i4).monthlyMortgage ∧
      ∀ pt ∈ (results i4).data,
        0 ≤ pt.equity ∧
        pt.equity = ↑(round (max 0 ((stateAfter i4 pt.year).value * (1 - (paramsOf i4).sellCost) -
          (stateAfter i4 pt.year).balance)))) :=
  ⟨by norm_num [paramsOf, i4, numOr],
    c4_nonneg_equity_and_payment i4 (by norm_num [paramsOf, i4, numOr])⟩

/-- C5: the horizon is an integer between 1 and 50, the engine emits
exactly one record per year, and the record at index k carries year
k+1, so years run 1..horizon in order with no gaps. -/
theorem c5_records_shape (i : RawInputs) :
    1 ≤ yMaxOf i ∧ yMaxOf i ≤ 50 ∧
    (results i).data.length = yMaxOf i ∧
    (results i).data.map Point.year = (List.range (yMaxOf i)).map (fun k => k + 1) := by
  have h1 : (1 : ℤ) ≤ max 1 (min 50 ⌊numOr i.years 1⌋) := le_max_left _ _
  have h2 : max 1 (min 50 ⌊numOr i.years 1⌋) ≤ 50 :=
    max_le (by norm_num) (min_le_left _ _)
  refine ⟨?_, ?_, ?_, ?_⟩
  · unfold yMaxOf
    omega
  · unfold yMaxOf
    omega
  · rw [results_data, List.length_map, List.length_range]
  · rw [results_data, List.map_map]
    rfl

/-- C6: during every month of a simulated year the owner is charged the
fixed payment plus property tax and maintenance of
`startOfYearValue * rate / 12`, where the start-of-year home value is
`price * (1+g)^y` and stays fixed for all months of the year; the home
value is multiplied by `1 + g` exactly once per year, after the
twelve months. -/
theorem c6_yearly_charges (i : RawInputs) (y k : ℕ) :
    (monthsRun (paramsOf i) (monthlyMortgageOf i) (y + 1) ((stateAfter i y).value) k
        ⟨(stateAfter i y).balance, (stateAfter i y).portfolio, 0, 0⟩).buyCashThisYear =
      k * (monthlyMortgageOf i + (stateAfter i y).value * (paramsOf i).propTax / 12 +
        (stateAfter i y).value * (paramsOf i).maint / 12) ∧
    (stateAfter i y).value = (paramsOf i).price * (1 + (paramsOf i).homeGrowth) ^ y ∧
    (stateAfter i (y + 1)).value = (stateAfter i y).value * (1 + (paramsOf i).homeGrowth) := by
  refine ⟨?_, stateAfter_value i y, ?_⟩
  · rw [monthsRun_buyCash]
    ring
  · rw [stateAfter_succ]
    rfl

/-- C7: the renter portfolio starts at the down payment, and the
engine's portfolio after y years equals the specification's recurrence
in which each month the previous balance first grows by the monthly
investment rate and only afterwards receives that month's
`ownerCash - rent` contribution. -/
theorem c7_portfolio_recurrence (i : RawInputs) (y : ℕ) :
    (stateAfter i 0).portfolio = (paramsOf i).downPayment ∧
    (stateAfter i y).portfolio = specPortfolio i (12 * y) :=
  ⟨rfl, portfolio_eq_specPortfolio i y⟩

/-- C8: a breakeven register holds `some y` exactly when `y` is the
first year in `1..horizon` whose end-of-year comparison succeeds, and
`none` exactly when no year in the horizon succeeds -- so the detection
is first-occurrence and is never overwritten by later years. -/
theorem c8_breakeven_first_occurrence (i : RawInputs) (y : ℕ) :
    ((results i).breakEvenWealthYear = some y ↔
      1 ≤ y ∧ y ≤ yMaxOf i ∧ wealthHit i y ∧ ∀ z, 1 ≤ z → z < y → ¬ wealthHit i z) ∧
    ((results i).breakEvenWealthYear = none ↔
      ∀ z, 1 ≤ z → z ≤ yMaxOf i → ¬ wealthHit i z) ∧
    ((results i).breakEvenCostYear = some y ↔
      1 ≤ y ∧ y ≤ yMaxOf i ∧ costHit i y ∧ ∀ z, 1 ≤ z → z < y → ¬ costHit i z) ∧
    ((results i).breakEvenCostYear = none ↔
      ∀ z, 1 ≤ z → z ≤ yMaxOf i → ¬ costHit i z) := by
  rw [results_bew, results_bec]
  exact ⟨firstYearHit_some_iff _ _ y, firstYearHit_none_iff _ _,
    firstYearHit_some_iff _ _ y, firstYearHit_none_iff _ _⟩

/-- C9: under a valid assumption set (non-negative money amounts, rates
above -100 percent), the emitted buyCashCum and rentPaidCum fields are
non-decreasing from each record to the next. -/
theorem c9_cumulative_monotone (i : RawInputs) (hv : ValidAssumptions i) :
    List.Chain' (fun a b => a ≤ b) ((results i).data.map Point.buyCashCum) ∧
    List.Chain' (fun a b => a ≤ b) ((results i).data.map Point.rentPaidCum) := by
  obtain ⟨hrm, hrg, hpr, hmr, hpt, hmt, hhg⟩ := hv
  constructor
  · rw [results_data, List.map_map]
    apply chain_le_of_step
    intro k
    show ((round ((stateAfter i (k + 1)).buyCashCum) : ℤ) : ℝ) ≤
      ((round ((stateAfter i (k + 2)).buyCashCum) : ℤ) : ℝ)
    exact_mod_cast round_le_of_le
      (buyCashCum_mono i ⟨hrm, hrg, hpr, hmr, hpt, hmt, hhg⟩ (k + 1))
  · rw [results_data, List.map_map]
    apply chain_le_of_step
    intro k
    show ((round ((stateAfter i (k + 1)).rentPaidCum) : ℤ) : ℝ) ≤
      ((round ((stateAfter i (k + 2)).rentPaidCum) : ℤ) : ℝ)
    exact_mod_cast round_le_of_le (rentPaidCum_mono i hrm hrg (k + 1))

/-- C9, witness: the validity hypothesis and the monotonicity
conclusion hold at the specification's concrete scenario. -/
theorem c9_witness :
    ValidAssumptions i4 ∧
    (List.Chain' (fun a b => a ≤ b) ((results i4).data.map Point.buyCashCum) ∧
     List.Chain' (fun a b => a ≤ b) ((results i4).data.map Point.rentPaidCum)) :=
  ⟨by norm_num [ValidAssumptions, paramsOf, i4, numOr],
    c9_cumulative_monotone i4 (by norm_num [ValidAssumptions, paramsOf, i4, numOr])⟩

/-- C10: every emitted record is the per-field rounding to whole
dollars of the unrounded end-of-year simulation state (which itself is
carried across months and years without any rounding), and the
monthlyMortgage and downPayment summary outputs are the roundings of
their unrounded values -- in particular every such field is an integer
cast. -/
theorem c10_rounded_emission (i : RawInputs) :
    (results i).data = (List.range (yMaxOf i)).map (fun k => mkRoundedPoint i (k + 1)) ∧
    (results i).monthlyMortgage = ↑(round (monthlyMortgageOf i)) ∧
    (results i).downPayment = ↑(round (paramsOf i).downPayment) :=
  ⟨results_data i, rfl, rfl⟩

end

end RentVsBuy
